import Mathlib

/-!
Shallow embedding of the question actions of the community Q&A application
(`src/app/(root)/community/page.tsx`): the five MongoDB collections are lists
of documents, and each server action is a pure function on the database state.
Fallible actions return `Except`, carrying the database state at the point the
error was thrown (the code rethrows after partial writes).
-/

namespace QApp

/-- A Question document. `createdAt` models the schema's creation timestamp. -/
structure Question where
  _id : Nat
  title : String
  content : String
  author : Nat
  tags : List Nat
  upvotes : List Nat
  downvotes : List Nat
  views : Nat
  answers : List Nat
  createdAt : Nat
deriving DecidableEq, Repr

/-- A Tag document. -/
structure Tag where
  _id : Nat
  name : String
  questions : List Nat
deriving DecidableEq, Repr

/-- A User document. -/
structure User where
  _id : Nat
  clerkId : String
  reputation : Int
deriving DecidableEq, Repr

/-- An Answer document. -/
structure Answer where
  _id : Nat
  question : Nat
deriving DecidableEq, Repr

/-- An Interaction document. -/
structure Interaction where
  _id : Nat
  user : Nat
  action : String
  question : Nat
  tags : List Nat
deriving DecidableEq, Repr

/-- The database: five collections plus a fresh-ObjectId counter. -/
structure DB where
  questions : List Question
  tags : List Tag
  users : List User
  answers : List Answer
  interactions : List Interaction
  nextId : Nat
deriving DecidableEq, Repr

/-- `findOneAndUpdate`/`findByIdAndUpdate` with `new: true`: update the first
document matching `p` (MongoDB `_id`s are unique, so at most one matches by id)
and return the updated document together with the updated collection. -/
def findAndUpdateFirst {α : Type} (p : α → Bool) (f : α → α) : List α → Option α × List α
  | [] => (none, [])
  | x :: xs =>
    if p x then (some (f x), f x :: xs)
    else
      let r := findAndUpdateFirst p f xs
      (r.1, x :: r.2)

/-- `deleteOne`: remove the first document matching `p`. -/
def eraseFirst {α : Type} (p : α → Bool) : List α → List α
  | [] => []
  | x :: xs => if p x then xs else x :: eraseFirst p xs

/-- Insert into a list kept sorted descending by `key`. -/
def insertDesc {α : Type} (key : α → Nat) (a : α) : List α → List α
  | [] => [a]
  | b :: bs => if key b ≤ key a then a :: b :: bs else b :: insertDesc key a bs

/-- MongoDB `sort` on a single numeric field, descending (`{field: -1}`). -/
def sortByKeyDesc {α : Type} (key : α → Nat) : List α → List α
  | [] => []
  | x :: xs => insertDesc key x (sortByKeyDesc key xs)

/-- Whether `needle` is a prefix of the second list. -/
def isPrefixL : List Char → List Char → Bool
  | [], _ => true
  | _ :: _, [] => false
  | a :: as1, b :: bs => a == b && isPrefixL as1 bs

/-- Whether `needle` occurs as a contiguous sublist. -/
def containsSub (needle : List Char) : List Char → Bool
  | [] => needle.isEmpty
  | c :: t => isPrefixL needle (c :: t) || containsSub needle t

/-- The case folding performed by the regex 'i' flag: lowercase a string,
character-wise. -/
def lowerStr (s : String) : List Char := s.data.map Char.toLower

/-- The JavaScript regex metacharacters: a pattern character outside this set
always denotes itself. -/
def regexMetaChars : List Char :=
  ['^', '$', '\\', '.', '*', '+', '?', '(', ')', '[', ']', '\x7b', '\x7d', '|']

/-- A string that the regex engine reads as its own literal: no character is a
regex metacharacter. -/
def regexLiteral (s : String) : Bool :=
  s.data.all (fun c => !(regexMetaChars.contains c))

/-- A regex atom of the modeled subset: `.` or a literal character. -/
inductive RAtom where
  | dot : RAtom
  | ch : Char → RAtom
deriving DecidableEq, Repr

/-- An atom with its quantifier (none, `*`, `+`, `?`). -/
inductive RPiece where
  | once : RAtom → RPiece
  | star : RAtom → RPiece
  | plus : RAtom → RPiece
  | opt : RAtom → RPiece
deriving DecidableEq, Repr

/-- Atom match under the 'i' flag: `.` matches anything but a newline, a
literal matches up to case. -/
def atomMatches (a : RAtom) (c : Char) : Bool :=
  match a with
  | .dot => c != '\n'
  | .ch a0 => Char.toLower c == Char.toLower a0

/-- Suffixes of `cs` reachable by consuming exactly one matching atom. -/
def onceSuffixes (a : RAtom) : List Char → List (List Char)
  | [] => []
  | c :: cs => if atomMatches a c then [cs] else []

/-- Suffixes of `cs` reachable by consuming zero or more matching atoms. -/
def starSuffixes (a : RAtom) : List Char → List (List Char)
  | [] => [([] : List Char)]
  | c :: cs => (c :: cs) :: (if atomMatches a c then starSuffixes a cs else [])

/-- Suffixes reachable after matching one piece. -/
def pieceSuffixes : RPiece → List Char → List (List Char)
  | .once a, cs => onceSuffixes a cs
  | .star a, cs => starSuffixes a cs
  | .plus a, cs => (onceSuffixes a cs).flatMap (fun cs2 => starSuffixes a cs2)
  | .opt a, cs => cs :: onceSuffixes a cs

/-- Suffixes reachable after matching a whole piece sequence. -/
def seqSuffixes : List RPiece → List Char → List (List Char)
  | [], cs => [cs]
  | p :: ps, cs => (pieceSuffixes p cs).flatMap (fun cs2 => seqSuffixes ps cs2)

/-- All suffixes of a character list, i.e. every position a match may start. -/
def allSuffixes : List Char → List (List Char)
  | [] => [([] : List Char)]
  | c :: cs => (c :: cs) :: allSuffixes cs

/-- The three quantifier characters. -/
def isQuantChar (c : Char) : Bool := c == '*' || c == '+' || c == '?'

/-- The atom a single pattern character denotes: `.` is the wildcard, a
metacharacter is not an atom, anything else is a literal. -/
def atomOf (c : Char) : Option RAtom :=
  if c == '.' then some RAtom.dot
  else if regexMetaChars.contains c then none
  else some (RAtom.ch c)

/-- The piece built by quantifier `q` applied to atom `a`. -/
def quantPiece (q : Char) (a : RAtom) : RPiece :=
  if q == '*' then RPiece.star a
  else if q == '+' then RPiece.plus a
  else RPiece.opt a

/-- Parse a reversed pattern body: a quantifier character must be followed (in
reversed order) by its atom. -/
def parseRev : List Char → Option (List RPiece)
  | [] => some []
  | c :: rest =>
    if isQuantChar c then
      match rest with
      | [] => none
      | d :: rest2 =>
        if isQuantChar d then none
        else
          match atomOf d with
          | none => none
          | some a => (parseRev rest2).map (fun ps => ps ++ [quantPiece c a])
    else
      match atomOf c with
      | none => none
      | some a => (parseRev rest).map (fun ps => ps ++ [RPiece.once a])

/-- Parse a pattern body into pieces. A quantifier with nothing to repeat
(as in `c++` or `a**`, a SyntaxError in JavaScript) yields `none`; so does any
construct outside the modeled subset (escapes, classes, groups, alternation,
mid-pattern anchors, lazy quantifiers). -/
def parsePieces (l : List Char) : Option (List RPiece) :=
  parseRev l.reverse

/-- Parse a full pattern: an optional leading `^` anchor, an optional trailing
`$` anchor, and a piece sequence in between. -/
def parseRegex (l : List Char) : Option (Bool × List RPiece × Bool) :=
  let aS : Bool := decide (l.head? = some '^')
  let l1 := if l.head? = some '^' then l.tail else l
  let aE : Bool := decide (l1.getLast? = some '$')
  let l2 := if l1.getLast? = some '$' then l1.dropLast else l1
  (parsePieces l2).map (fun ps => (aS, ps, aE))

/-- `new RegExp(pattern, 'i').test(s)`, for the modeled subset of the pattern
language: the pattern must match starting at some position of `s` (position 0
if `^`-anchored) and, if `$`-anchored, consume through the end. A pattern the
parser cannot read — whether a JavaScript SyntaxError such as `c++`, which
makes the real code throw, or syntax outside the subset — matches nothing;
this collapses the code's throw-on-invalid-pattern path into the no-match
result. -/
def regexTest (pattern s : String) : Bool :=
  match parseRegex pattern.data with
  | none => false
  | some (aS, ps, aE) =>
    let starts := if aS then [s.data] else allSuffixes s.data
    starts.any (fun cs => (seqSuffixes ps cs).any (fun rest => !aE || rest.isEmpty))

/-- The filter `new RegExp(searchQuery, 'i')` / `$regex ... $options: 'i'`
applied to `hay`: the unescaped user-supplied query is the pattern. For a
metacharacter-free query this is case-insensitive substring matching; for
other queries the regex semantics (and its collapsed error path) apply. -/
def containsCI (hay needle : String) : Bool :=
  regexTest needle hay

/-- `User.findByIdAndUpdate(uid, { $inc: { reputation: delta } })`. -/
def incReputation (db : DB) (uid : Nat) (delta : Int) : DB :=
  { db with
    users := (findAndUpdateFirst (fun u => u._id == uid)
      (fun u => { u with reputation := u.reputation + delta }) db.users).2 }

/-- The three-way vote update of `upvoteQuestion`: retract own upvote
(`$pull`), swap a downvote for an upvote (`$pull` + `$push`), or add a fresh
upvote (`$addToSet`). -/
def upvoteUpdate (userId : Nat) (hasupVoted hasdownVoted : Bool) (q : Question) : Question :=
  if hasupVoted then
    { q with upvotes := q.upvotes.filter (fun v => v != userId) }
  else if hasdownVoted then
    { q with downvotes := q.downvotes.filter (fun v => v != userId),
             upvotes := q.upvotes ++ [userId] }
  else
    { q with upvotes := if q.upvotes.contains userId then q.upvotes else q.upvotes ++ [userId] }

/-- `upvoteQuestion`: apply the vote update, throw if the question is missing,
then adjust the actor's reputation by ±1 and the author's by ±10. -/
def upvoteQuestion (db : DB) (questionId userId : Nat) (hasupVoted hasdownVoted : Bool) :
    Except (String × DB) DB :=
  let r := findAndUpdateFirst (fun q => q._id == questionId)
    (upvoteUpdate userId hasupVoted hasdownVoted) db.questions
  let db1 := { db with questions := r.2 }
  match r.1 with
  | none => Except.error ("Question not found", db1)
  | some question =>
    let db2 := incReputation db1 userId (if hasupVoted then -1 else 1)
    let db3 := incReputation db2 question.author (if hasupVoted then -10 else 10)
    Except.ok db3

/-- The three-way vote update of `downvoteQuestion`. -/
def downvoteUpdate (userId : Nat) (hasupVoted hasdownVoted : Bool) (q : Question) : Question :=
  if hasdownVoted then
    { q with downvotes := q.downvotes.filter (fun v => v != userId) }
  else if hasupVoted then
    { q with upvotes := q.upvotes.filter (fun v => v != userId),
             downvotes := q.downvotes ++ [userId] }
  else
    { q with downvotes := if q.downvotes.contains userId then q.downvotes else q.downvotes ++ [userId] }

/-- `downvoteQuestion`: apply the vote update, throw if the question is
missing, then adjust the actor's reputation by ±2 and the author's by ±10. -/
def downvoteQuestion (db : DB) (questionId userId : Nat) (hasupVoted hasdownVoted : Bool) :
    Except (String × DB) DB :=
  let r := findAndUpdateFirst (fun q => q._id == questionId)
    (downvoteUpdate userId hasupVoted hasdownVoted) db.questions
  let db1 := { db with questions := r.2 }
  match r.1 with
  | none => Except.error ("Question not found", db1)
  | some question =>
    let db2 := incReputation db1 userId (if hasdownVoted then -2 else 2)
    let db3 := incReputation db2 question.author (if hasdownVoted then -10 else 10)
    Except.ok db3

/-- The tag-loop body of `createQuestion`:
`Tag.findOneAndUpdate({name: {$regex: new RegExp(^tag$, 'i')}},
{$setOnInsert: {name: tag}, $push: {questions: qid}}, {upsert: true,
new: true})`. The unescaped tag name is interpolated into an anchored
case-insensitive regex; for a metacharacter-free tag this is case-insensitive
name equality. Returns the updated database and the resolved tag's `_id`. -/
def upsertTag (db : DB) (qid : Nat) (tag : String) : DB × Nat :=
  let r := findAndUpdateFirst (fun t => regexTest ("^" ++ tag ++ "$") t.name)
    (fun t => { t with questions := t.questions ++ [qid] }) db.tags
  match r.1 with
  | some t => ({ db with tags := r.2 }, t._id)
  | none =>
    let tid := db.nextId
    ({ db with nextId := db.nextId + 1,
               tags := db.tags ++ [{ _id := tid, name := tag, questions := [qid] }] }, tid)

/-- The `for (const tag of tags)` loop of `createQuestion`, threading the
database through each upsert and accumulating `tagDocuments` in order. -/
def upsertTags (db : DB) (qid : Nat) : List String → DB × List Nat
  | [] => (db, [])
  | tag :: rest =>
    let r := upsertTag db qid tag
    let r2 := upsertTags r.1 qid rest
    (r2.1, r.2 :: r2.2)

/-- The literal pieces a metacharacter-free pattern parses to. -/
def piecesLit (l : List Char) : List RPiece :=
  l.map (fun c => RPiece.once (RAtom.ch c))

/-- The document inserted by `Question.create`: empty reference arrays, zero
views, and a fresh id. `createdAt` is modelled from the spec ("created
timestamp"; the schema module is outside `src/`) as the supplied clock `now`. -/
def createQuestionDoc (db : DB) (title content : String) (author now : Nat) : Question :=
  { _id := db.nextId, title := title, content := content, author := author,
    tags := [], upvotes := [], downvotes := [], views := 0, answers := [],
    createdAt := now }

/-- `createQuestion`: create the question, find-or-create each tag and push the
question id onto it, push the resolved tag ids onto the question, record an
`ask_question` Interaction, and give the author +5 reputation. -/
def createQuestion (db : DB) (title content : String) (tags : List String)
    (author : Nat) (now : Nat) : DB :=
  let qid := db.nextId
  let q : Question := createQuestionDoc db title content author now
  let db1 := { db with nextId := db.nextId + 1, questions := db.questions ++ [q] }
  let r := upsertTags db1 qid tags
  let db2 := r.1
  let tagDocuments := r.2
  let db3 := { db2 with
    questions := (findAndUpdateFirst (fun (x : Question) => x._id == qid)
      (fun x => { x with tags := x.tags ++ tagDocuments }) db2.questions).2 }
  let db4 := { db3 with
    interactions := db3.interactions ++
      [({ _id := db3.nextId, user := author, action := "ask_question",
          question := qid, tags := tagDocuments } : Interaction)],
    nextId := db3.nextId + 1 }
  { db4 with
    users := (findAndUpdateFirst (fun (u : User) => u._id == author)
      (fun u => { u with reputation := u.reputation + 5 }) db4.users).2 }

/-- `deleteQuestion`: `Question.deleteOne({_id})`, `Answer.deleteMany({question})`,
`Interaction.deleteMany({question})`, and
`Tag.updateMany({questions: qid}, {$pull: {questions: qid}})`. -/
def deleteQuestion (db : DB) (questionId : Nat) : DB :=
  { db with
    questions := eraseFirst (fun q => q._id == questionId) db.questions,
    answers := db.answers.filter (fun a => a.question != questionId),
    interactions := db.interactions.filter (fun i => i.question != questionId),
    tags := db.tags.map (fun t =>
      if t.questions.contains questionId then
        { t with questions := t.questions.filter (fun x => x != questionId) }
      else t) }

/-- `editQuestion`: find the question by id (throwing if absent), overwrite its
`title` and `content`, and save it back. -/
def editQuestion (db : DB) (questionId : Nat) (title content : String) :
    Except (String × DB) DB :=
  let r := findAndUpdateFirst (fun q => q._id == questionId)
    (fun q => { q with title := title, content := content }) db.questions
  match r.1 with
  | none => Except.error ("Question not found", db)
  | some _ => Except.ok { db with questions := r.2 }

/-- The filter object built by `getQuestions`: an `$or` regex match on title or
content when `searchQuery` is present, plus `answers: {$size: 0}` exactly when
the filter is `unanswered`. -/
def questionQuery (searchQuery filter : Option String) (q : Question) : Bool :=
  (match searchQuery with
   | none => true
   | some s => containsCI q.title s || containsCI q.content s) &&
  (match filter with
   | some f => if f == ("unanswered" : String) then q.answers.length == 0 else true
   | none => true)

/-- The sort applied by `getQuestions`: `createdAt: -1` for `newest` and the
default branch, `views: -1` for `frequent`, and no sort for `unanswered`. -/
def questionSort (filter : Option String) (l : List Question) : List Question :=
  match filter with
  | some f =>
    if f == ("newest" : String) then sortByKeyDesc (fun q => q.createdAt) l
    else if f == ("frequent" : String) then sortByKeyDesc (fun q => q.views) l
    else if f == ("unanswered" : String) then l
    else sortByKeyDesc (fun q => q.createdAt) l
  | none => sortByKeyDesc (fun q => q.createdAt) l

/-- `getQuestions`: filter, sort, paginate (MongoDB applies `sort` before
`skip`/`limit`), count the matching documents, and report
`isNext = totalQuestions > skipAmount + questions.length`. -/
def getQuestions (db : DB) (searchQuery filter : Option String)
    (page pageSize : Nat) : List Question × Bool :=
  let skipAmount := (page - 1) * pageSize
  let matched := db.questions.filter (questionQuery searchQuery filter)
  let questions := ((questionSort filter matched).drop skipAmount).take pageSize
  let totalQuestions := matched.length
  (questions, decide (totalQuestions > skipAmount + questions.length))

/-- The deduplicated tag ids gathered from a user's Interaction records:
flatten each interaction's `tags` and keep first occurrences (`new Set`). -/
def userDistinctTagIds (db : DB) (uid : Nat) : List Nat :=
  (((db.interactions.filter (fun i => i.user == uid)).foldl
    (fun tags i => tags ++ i.tags) []).eraseDups)

/-- The filter object built by `getRecommendedQuestions`: `$and` of a tag
overlap with `tagIds` and `author ≠ ownerId`, conjoined with the optional
case-insensitive `$or` text match. -/
def recommendedQuery (tagIds : List Nat) (ownerId : Nat)
    (searchQuery : Option String) (q : Question) : Bool :=
  (q.tags.any (fun t => tagIds.contains t) && q.author != ownerId) &&
  (match searchQuery with
   | none => true
   | some s => containsCI q.title s || containsCI q.content s)

/-- `getRecommendedQuestions`: resolve the clerkId to a user (throwing if
absent), gather the user's distinct interaction tag ids, filter questions by
tag overlap excluding the user's own (optionally text-filtered), paginate, and
report `isNext = totalQuestions > skipAmount + recommendedQuestions.length`. -/
def getRecommendedQuestions (db : DB) (userId : String)
    (page pageSize : Nat) (searchQuery : Option String) :
    Except String (List Question × Bool) :=
  match db.users.find? (fun u => u.clerkId == userId) with
  | none => Except.error ("user not found")
  | some user =>
    let skipAmount := (page - 1) * pageSize
    let distinctUserTagIds := userDistinctTagIds db user._id
    let matched := db.questions.filter
      (recommendedQuery distinctUserTagIds user._id searchQuery)
    let totalQuestions := matched.length
    let recommendedQuestions := (matched.drop skipAmount).take pageSize
    Except.ok (recommendedQuestions,
      decide (totalQuestions > skipAmount + recommendedQuestions.length))

/-- A sample question: authored by user 1, tagged 7, downvoted by user 2. -/
def sampleQ : Question :=
  ⟨10, "Intro to Rust", "Learning Rust", 1, [7], [], [2], 3, [], 5⟩

/-- `sampleQ` after user 2 swaps the downvote for an upvote. -/
def sampleQSwapped : Question :=
  ⟨10, "Intro to Rust", "Learning Rust", 1, [7], [2], [], 3, [], 5⟩

/-- A small concrete database used to instantiate the theorems. -/
def sampleDB : DB :=
  { questions := [sampleQ],
    tags := [⟨7, "Rust", [10]⟩],
    users := [⟨1, "c1", 0⟩, ⟨2, "c2", 0⟩],
    answers := [⟨40, 10⟩],
    interactions := [⟨30, 2, "ask_question", 10, [7]⟩],
    nextId := 50 }

/-- `sampleDB` after `upvoteQuestion` by user 2 who had downvoted: the vote is
swapped, the actor gains +1 reputation and the author +10. -/
def sampleDBSwapped : DB :=
  { questions := [sampleQSwapped],
    tags := [⟨7, "Rust", [10]⟩],
    users := [⟨1, "c1", 10⟩, ⟨2, "c2", 1⟩],
    answers := [⟨40, 10⟩],
    interactions := [⟨30, 2, "ask_question", 10, [7]⟩],
    nextId := 50 }

/-- `sampleDB` after `downvoteQuestion` by user 2 who had downvoted: the
downvote is retracted, the actor loses 2 reputation and the author 10. -/
def sampleDBRetracted : DB :=
  { questions := [⟨10, "Intro to Rust", "Learning Rust", 1, [7], [], [], 3, [], 5⟩],
    tags := [⟨7, "Rust", [10]⟩],
    users := [⟨1, "c1", -10⟩, ⟨2, "c2", -2⟩],
    answers := [⟨40, 10⟩],
    interactions := [⟨30, 2, "ask_question", 10, [7]⟩],
    nextId := 50 }

theorem findAndUpdateFirst_of_none {α : Type} (p : α → Bool) (f : α → α)
    (l : List α) (h : ∀ x ∈ l, p x = false) :
    findAndUpdateFirst p f l = (none, l) := by
  induction l with
  | nil => rfl
  | cons x xs ih =>
    have hx : p x = false := h x (List.mem_cons_self x xs)
    have ih2 : findAndUpdateFirst p f xs = (none, xs) :=
      ih (fun y hy => h y (List.mem_cons_of_mem x hy))
    simp [findAndUpdateFirst, hx, ih2]

theorem findAndUpdateFirst_fst {α : Type} (p : α → Bool) (f : α → α)
    (l : List α) :
    (findAndUpdateFirst p f l).1 = (l.find? p).map f := by
  induction l with
  | nil => rfl
  | cons x xs ih =>
    cases hx : p x with
    | true => simp [findAndUpdateFirst, hx, List.find?_cons_of_pos _ hx]
    | false =>
      have hf : List.find? p (x :: xs) = List.find? p xs :=
        List.find?_cons_of_neg xs (by simp [hx])
      simp [findAndUpdateFirst, hx, hf, ih]

theorem findAndUpdateFirst_mem {α : Type} (p : α → Bool) (f : α → α)
    (l : List α) (y : α) (hy : y ∈ (findAndUpdateFirst p f l).2) :
    y ∈ l ∨ ∃ x, x ∈ l ∧ p x = true ∧ y = f x := by
  induction l with
  | nil =>
    simp [findAndUpdateFirst] at hy
  | cons x xs ih =>
    cases hx : p x with
    | true =>
      rw [findAndUpdateFirst, if_pos hx] at hy
      rcases List.mem_cons.mp hy with h1 | h1
      · exact Or.inr ⟨x, List.mem_cons_self x xs, hx, h1⟩
      · exact Or.inl (List.mem_cons_of_mem x h1)
    | false =>
      rw [findAndUpdateFirst, if_neg (by simp [hx])] at hy
      rcases List.mem_cons.mp hy with h1 | h1
      · exact Or.inl (h1 ▸ List.mem_cons_self x xs)
      · rcases ih h1 with h2 | ⟨z, hz, hpz, hyz⟩
        · exact Or.inl (List.mem_cons_of_mem x h2)
        · exact Or.inr ⟨z, List.mem_cons_of_mem x hz, hpz, hyz⟩

theorem findAndUpdateFirst_find?_same {α : Type} (p : α → Bool) (f : α → α)
    (l : List α) (hpf : ∀ x, p (f x) = p x) :
    (findAndUpdateFirst p f l).2.find? p = (l.find? p).map f := by
  induction l with
  | nil => rfl
  | cons x xs ih =>
    cases hx : p x with
    | true =>
      rw [findAndUpdateFirst, if_pos hx]
      rw [List.find?_cons_of_pos _ (by rw [hpf]; exact hx),
          List.find?_cons_of_pos _ hx]
      rfl
    | false =>
      rw [findAndUpdateFirst, if_neg (by simp [hx])]
      rw [List.find?_cons_of_neg _ (by simp [hx]),
          List.find?_cons_of_neg _ (by simp [hx])]
      exact ih

theorem findAndUpdateFirst_find?_other {α : Type} (p q : α → Bool) (f : α → α)
    (l : List α) (hpq : ∀ x, p x = true → q x = false)
    (hqf : ∀ x, q (f x) = q x) :
    (findAndUpdateFirst p f l).2.find? q = l.find? q := by
  induction l with
  | nil => rfl
  | cons x xs ih =>
    cases hx : p x with
    | true =>
      rw [findAndUpdateFirst, if_pos hx]
      have hq : q x = false := hpq x hx
      rw [List.find?_cons_of_neg _ (by simp [hqf, hq]),
          List.find?_cons_of_neg _ (by simp [hq])]
    | false =>
      rw [findAndUpdateFirst, if_neg (by simp [hx])]
      cases hq : q x with
      | true =>
        rw [List.find?_cons_of_pos _ hq, List.find?_cons_of_pos _ hq]
      | false =>
        rw [List.find?_cons_of_neg _ (by simp [hq]),
            List.find?_cons_of_neg _ (by simp [hq])]
        exact ih

theorem findAndUpdateFirst_length {α : Type} (p : α → Bool) (f : α → α)
    (l : List α) :
    (findAndUpdateFirst p f l).2.length = l.length := by
  induction l with
  | nil => rfl
  | cons x xs ih =>
    cases hx : p x with
    | true => rw [findAndUpdateFirst, if_pos hx]; simp
    | false => rw [findAndUpdateFirst, if_neg (by simp [hx])]; simp [ih]

theorem mem_eraseFirst {α : Type} (p : α → Bool) (l : List α) (y : α)
    (hy : y ∈ eraseFirst p l) : y ∈ l := by
  induction l with
  | nil => simp [eraseFirst] at hy
  | cons x xs ih =>
    cases hx : p x with
    | true =>
      rw [eraseFirst, if_pos hx] at hy
      exact List.mem_cons_of_mem x hy
    | false =>
      rw [eraseFirst, if_neg (by simp [hx])] at hy
      rcases List.mem_cons.mp hy with h1 | h1
      · exact h1 ▸ List.mem_cons_self x xs
      · exact List.mem_cons_of_mem x (ih h1)

theorem eraseFirst_key_ne {α : Type} (key : α → Nat) (k : Nat) (l : List α)
    (hnd : (l.map key).Nodup) (y : α)
    (hy : y ∈ eraseFirst (fun x => key x == k) l) : key y ≠ k := by
  induction l with
  | nil => simp [eraseFirst] at hy
  | cons x xs ih =>
    rw [List.map_cons, List.nodup_cons] at hnd
    cases hx : (key x == k) with
    | true =>
      rw [eraseFirst, if_pos hx] at hy
      intro hk
      have hxk : key x = k := by simpa using hx
      exact hnd.1 (by rw [hxk, ← hk]; exact List.mem_map_of_mem key hy)
    | false =>
      rw [eraseFirst, if_neg (by simp [hx])] at hy
      rcases List.mem_cons.mp hy with h1 | h1
      · subst h1; simpa using hx
      · exact ih hnd.2 h1

/-! ### Lemmas about the descending insertion sort -/

theorem mem_insertDesc {α : Type} (key : α → Nat) (a : α) (l : List α) (y : α) :
    y ∈ insertDesc key a l ↔ y = a ∨ y ∈ l := by
  induction l with
  | nil => simp [insertDesc]
  | cons b bs ih =>
    by_cases h : key b ≤ key a
    · simp [insertDesc, h]
    · simp [insertDesc, h, ih]; tauto

theorem pairwise_insertDesc {α : Type} (key : α → Nat) (a : α) (l : List α)
    (h : l.Pairwise (fun x y => key y ≤ key x)) :
    (insertDesc key a l).Pairwise (fun x y => key y ≤ key x) := by
  induction l with
  | nil => simp [insertDesc]
  | cons b bs ih =>
    rcases List.pairwise_cons.mp h with ⟨hb, hbs⟩
    by_cases hle : key b ≤ key a
    · rw [insertDesc, if_pos hle]
      refine List.pairwise_cons.mpr ⟨?_, h⟩
      intro y hy
      rcases List.mem_cons.mp hy with h1 | h1
      · exact h1 ▸ hle
      · exact le_trans (hb y h1) hle
    · rw [insertDesc, if_neg hle]
      refine List.pairwise_cons.mpr ⟨?_, ih hbs⟩
      intro y hy
      rcases (mem_insertDesc key a bs y).mp hy with h1 | h1
      · exact h1 ▸ Nat.le_of_lt (Nat.lt_of_not_le hle)
      · exact hb y h1

theorem mem_sortByKeyDesc {α : Type} (key : α → Nat) (l : List α) (y : α) :
    y ∈ sortByKeyDesc key l ↔ y ∈ l := by
  induction l with
  | nil => simp [sortByKeyDesc]
  | cons x xs ih => simp [sortByKeyDesc, mem_insertDesc, ih]

theorem pairwise_sortByKeyDesc {α : Type} (key : α → Nat) (l : List α) :
    (sortByKeyDesc key l).Pairwise (fun x y => key y ≤ key x) := by
  induction l with
  | nil => simp [sortByKeyDesc]
  | cons x xs ih => exact pairwise_insertDesc key x _ ih

/-! ### The case-insensitive substring predicate -/

theorem isPrefixL_iff (n h : List Char) :
    isPrefixL n h = true ↔ ∃ t, h = n ++ t := by
  induction n generalizing h with
  | nil => simp [isPrefixL]
  | cons a as1 ih =>
    cases h with
    | nil =>
      simp [isPrefixL]
    | cons b bs =>
      rw [isPrefixL]
      simp only [Bool.and_eq_true, beq_iff_eq, ih, List.cons_append]
      constructor
      · rintro ⟨rfl, t, rfl⟩
        exact ⟨t, rfl⟩
      · rintro ⟨t, ht⟩
        rw [List.cons_eq_cons] at ht
        exact ⟨ht.1.symm, t, ht.2⟩

theorem containsSub_iff (n h : List Char) :
    containsSub n h = true ↔ ∃ l r, h = l ++ n ++ r := by
  induction h with
  | nil =>
    rw [containsSub]
    simp only [List.isEmpty_iff]
    constructor
    · rintro rfl
      exact ⟨[], [], rfl⟩
    · rintro ⟨l, r, hlr⟩
      rcases List.append_eq_nil.mp hlr.symm with ⟨h1, h2⟩
      exact (List.append_eq_nil.mp h1).2
  | cons c t ih =>
    rw [containsSub]
    simp only [Bool.or_eq_true, isPrefixL_iff, ih]
    constructor
    · rintro (⟨r, hr⟩ | ⟨l, r, hlr⟩)
      · exact ⟨[], r, by simpa using hr⟩
      · exact ⟨c :: l, r, by simp [hlr]⟩
    · rintro ⟨l, r, hlr⟩
      cases l with
      | nil =>
        exact Or.inl ⟨r, by simpa using hlr⟩
      | cons c2 l2 =>
        simp only [List.cons_append, List.cons_eq_cons] at hlr
        exact Or.inr ⟨l2, r, hlr.2⟩

/-! ### Vote-action lemmas -/

theorem upvoteUpdate_id (userId : Nat) (hu hd : Bool) (q : Question) :
    (upvoteUpdate userId hu hd q)._id = q._id := by
  cases hu <;> cases hd <;> simp [upvoteUpdate]

theorem upvoteUpdate_author (userId : Nat) (hu hd : Bool) (q : Question) :
    (upvoteUpdate userId hu hd q).author = q.author := by
  cases hu <;> cases hd <;> simp [upvoteUpdate]

theorem downvoteUpdate_id (userId : Nat) (hu hd : Bool) (q : Question) :
    (downvoteUpdate userId hu hd q)._id = q._id := by
  cases hu <;> cases hd <;> simp [downvoteUpdate]

theorem downvoteUpdate_author (userId : Nat) (hu hd : Bool) (q : Question) :
    (downvoteUpdate userId hu hd q).author = q.author := by
  cases hu <;> cases hd <;> simp [downvoteUpdate]

theorem incReputation_questions (db : DB) (uid : Nat) (d : Int) :
    (incReputation db uid d).questions = db.questions := rfl

theorem incReputation_find?_self (db : DB) (uid : Nat) (d : Int) (u : User)
    (h : db.users.find? (fun x => x._id == uid) = some u) :
    (incReputation db uid d).users.find? (fun x => x._id == uid) =
      some { u with reputation := u.reputation + d } := by
  unfold incReputation
  rw [findAndUpdateFirst_find?_same (fun x : User => x._id == uid)
    (fun u => { u with reputation := u.reputation + d }) db.users (fun x => rfl), h]
  rfl

theorem incReputation_find?_other (db : DB) (uid k : Nat) (d : Int) (hk : k ≠ uid) :
    (incReputation db uid d).users.find? (fun x => x._id == k) =
      db.users.find? (fun x => x._id == k) := by
  unfold incReputation
  apply findAndUpdateFirst_find?_other
  · intro x hx
    have hx2 : x._id = uid := by simpa using hx
    rw [hx2]
    exact beq_eq_false_iff_ne.mpr (Ne.symm hk)
  · intro x; rfl

theorem upvoteQuestion_eq_ok (db : DB) (qid uid : Nat) (hu hd : Bool) (q : Question)
    (hq : db.questions.find? (fun x => x._id == qid) = some q) :
    upvoteQuestion db qid uid hu hd = Except.ok
      (incReputation (incReputation
        { db with questions := (findAndUpdateFirst (fun x => x._id == qid)
            (upvoteUpdate uid hu hd) db.questions).2 }
        uid (if hu then -1 else 1))
        (upvoteUpdate uid hu hd q).author (if hu then -10 else 10)) := by
  have h1 : (findAndUpdateFirst (fun x => x._id == qid)
      (upvoteUpdate uid hu hd) db.questions).1 = some (upvoteUpdate uid hu hd q) := by
    rw [findAndUpdateFirst_fst, hq]; rfl
  simp [upvoteQuestion, h1]

theorem downvoteQuestion_eq_ok (db : DB) (qid uid : Nat) (hu hd : Bool) (q : Question)
    (hq : db.questions.find? (fun x => x._id == qid) = some q) :
    downvoteQuestion db qid uid hu hd = Except.ok
      (incReputation (incReputation
        { db with questions := (findAndUpdateFirst (fun x => x._id == qid)
            (downvoteUpdate uid hu hd) db.questions).2 }
        uid (if hd then -2 else 2))
        (downvoteUpdate uid hu hd q).author (if hd then -10 else 10)) := by
  have h1 : (findAndUpdateFirst (fun x => x._id == qid)
      (downvoteUpdate uid hu hd) db.questions).1 = some (downvoteUpdate uid hu hd q) := by
    rw [findAndUpdateFirst_fst, hq]; rfl
  simp [downvoteQuestion, h1]

/-- Claim C9: when no question has the supplied id, `upvoteQuestion` and
`downvoteQuestion` fail with the generic error `Question not found` thrown
after the vote-update attempt, and the database state carried at the throw —
in particular every user's reputation — is unchanged; when the question
exists, both actions succeed without raising that error. -/
theorem claim_C9 :
    (∀ (db : DB) (qid uid : Nat) (hu hd : Bool),
      (∀ q ∈ db.questions, (q._id == qid) = false) →
      upvoteQuestion db qid uid hu hd = Except.error ("Question not found", db) ∧
      downvoteQuestion db qid uid hu hd = Except.error ("Question not found", db)) ∧
    (∀ (db : DB) (qid uid : Nat) (hu hd : Bool) (q : Question),
      db.questions.find? (fun x => x._id == qid) = some q →
      (∃ db1, upvoteQuestion db qid uid hu hd = Except.ok db1) ∧
      (∃ db2, downvoteQuestion db qid uid hu hd = Except.ok db2)) := by
  constructor
  · intro db qid uid hu hd h
    constructor
    · have hf := findAndUpdateFirst_of_none (fun q => q._id == qid)
        (upvoteUpdate uid hu hd) db.questions h
      simp [upvoteQuestion, hf]
    · have hf := findAndUpdateFirst_of_none (fun q => q._id == qid)
        (downvoteUpdate uid hu hd) db.questions h
      simp [downvoteQuestion, hf]
  · intro db qid uid hu hd q hq
    exact ⟨⟨_, upvoteQuestion_eq_ok db qid uid hu hd q hq⟩,
           ⟨_, downvoteQuestion_eq_ok db qid uid hu hd q hq⟩⟩

/-- Claim C1: if the `hasupVoted`/`hasdownVoted` flags correctly reflect the
acting user's membership in the question's vote arrays before the call, then
after either `upvoteQuestion` or `downvoteQuestion` succeeds, the question (as
observed by a subsequent read) never holds the user in both `upvotes` and
`downvotes`: the vote state is exactly one of none, upvoted, downvoted. -/
theorem claim_C1 (db : DB) (qid uid : Nat) (hu hd : Bool) (q : Question)
    (hq : db.questions.find? (fun x => x._id == qid) = some q)
    (hhu : hu = decide (uid ∈ q.upvotes)) (hhd : hd = decide (uid ∈ q.downvotes)) :
    (∀ db1 q1, upvoteQuestion db qid uid hu hd = Except.ok db1 →
      db1.questions.find? (fun x => x._id == qid) = some q1 →
      ¬(uid ∈ q1.upvotes ∧ uid ∈ q1.downvotes)) ∧
    (∀ db2 q2, downvoteQuestion db qid uid hu hd = Except.ok db2 →
      db2.questions.find? (fun x => x._id == qid) = some q2 →
      ¬(uid ∈ q2.upvotes ∧ uid ∈ q2.downvotes)) := by
  constructor
  · intro db1 q1 hok hfind
    rw [upvoteQuestion_eq_ok db qid uid hu hd q hq] at hok
    have hdb1 := Except.ok.inj hok
    subst hdb1
    rw [incReputation_questions, incReputation_questions] at hfind
    rw [findAndUpdateFirst_find?_same _ _ _
      (fun x => by simp [upvoteUpdate_id]), hq] at hfind
    have hq1 : q1 = upvoteUpdate uid hu hd q := (Option.some.inj hfind).symm
    subst hq1 hhu hhd
    by_cases h1 : uid ∈ q.upvotes
    · simp [upvoteUpdate, h1, List.mem_filter]
    · by_cases h2 : uid ∈ q.downvotes
      · simp [upvoteUpdate, h1, h2, List.mem_filter]
      · simp [upvoteUpdate, h1, h2]
  · intro db2 q2 hok hfind
    rw [downvoteQuestion_eq_ok db qid uid hu hd q hq] at hok
    have hdb2 := Except.ok.inj hok
    subst hdb2
    rw [incReputation_questions, incReputation_questions] at hfind
    rw [findAndUpdateFirst_find?_same _ _ _
      (fun x => by simp [downvoteUpdate_id]), hq] at hfind
    have hq2 : q2 = downvoteUpdate uid hu hd q := (Option.some.inj hfind).symm
    subst hq2 hhu hhd
    by_cases h2 : uid ∈ q.downvotes
    · simp [downvoteUpdate, h2, List.mem_filter]
    · by_cases h1 : uid ∈ q.upvotes
      · simp [downvoteUpdate, h1, h2, List.mem_filter]
      · simp [downvoteUpdate, h1, h2]

/-- Witness for claim C9 at `sampleDB`: question 99 does not exist and both
vote actions fail leaving the state unchanged; question 10 exists and both
vote actions succeed. -/
theorem claim_C9_witness :
    (upvoteQuestion sampleDB 99 2 false false =
        Except.error ("Question not found", sampleDB) ∧
      downvoteQuestion sampleDB 99 2 false false =
        Except.error ("Question not found", sampleDB)) ∧
    ((∃ db1, upvoteQuestion sampleDB 10 2 false true = Except.ok db1) ∧
      (∃ db2, downvoteQuestion sampleDB 10 2 false true = Except.ok db2)) :=
  ⟨claim_C9.1 sampleDB 99 2 false false (by decide),
   claim_C9.2 sampleDB 10 2 false true sampleQ (by decide)⟩

/-- Witness for claim C1 at `sampleDB`: after user 2 (who had downvoted
question 10) upvotes it, the observed question holds user 2 in at most one
vote array. -/
theorem claim_C1_witness :
    ¬((2 : Nat) ∈ sampleQSwapped.upvotes ∧ (2 : Nat) ∈ sampleQSwapped.downvotes) :=
  (claim_C1 sampleDB 10 2 false true sampleQ (by decide) (by decide) (by decide)).1
    sampleDBSwapped sampleQSwapped (by rfl) (by decide)

/-- Claim C7: for `getQuestions` and `getRecommendedQuestions`, with any page
and page size, `isNext` is true iff the total count of matching documents
strictly exceeds `skipAmount + (number of questions returned)`, where
`skipAmount = (page - 1) * pageSize`. -/
theorem claim_C7 :
    (∀ (db : DB) (sq f : Option String) (page ps : Nat),
      ((getQuestions db sq f page ps).2 = true ↔
        (db.questions.filter (questionQuery sq f)).length >
          (page - 1) * ps + (getQuestions db sq f page ps).1.length)) ∧
    (∀ (db : DB) (userId : String) (page ps : Nat) (sq : Option String)
        (res : List Question × Bool) (user : User),
      db.users.find? (fun u => u.clerkId == userId) = some user →
      getRecommendedQuestions db userId page ps sq = Except.ok res →
      (res.2 = true ↔
        (db.questions.filter
          (recommendedQuery (userDistinctTagIds db user._id) user._id sq)).length >
          (page - 1) * ps + res.1.length)) := by
  constructor
  · intro db sq f page ps
    simp [getQuestions]
  · intro db userId page ps sq res user huser hok
    simp only [getRecommendedQuestions, huser] at hok
    have hres := Except.ok.inj hok
    subst hres
    simp

/-- Witness for claim C7's second conjunct at `sampleDB`: the recommendation
query for user 2 returns one question on a full first page, so `isNext` is
false and indeed the total does not exceed skip plus returned. -/
theorem claim_C7_witness :
    ((getRecommendedQuestions sampleDB "c2" 1 20 none).toOption.getD ([], true)).2 = true ↔
      (sampleDB.questions.filter
        (recommendedQuery (userDistinctTagIds sampleDB 2) 2 none)).length >
        (1 - 1) * 20 +
          ((getRecommendedQuestions sampleDB "c2" 1 20 none).toOption.getD ([], true)).1.length :=
  claim_C7.2 sampleDB "c2" 1 20 none
    ((getRecommendedQuestions sampleDB "c2" 1 20 none).toOption.getD ([], true))
    ⟨2, "c2", 0⟩ (by decide) (by rfl)

/-- Claim C5: assuming unique question ids, after `deleteQuestion db qid` the
question with that id is gone, every Answer and Interaction referencing it is
gone, and its id is removed from every Tag's `questions` list. -/
theorem claim_C5 (db : DB) (qid : Nat)
    (hnd : (db.questions.map (fun q => q._id)).Nodup) :
    (∀ q ∈ (deleteQuestion db qid).questions, q._id ≠ qid) ∧
    (∀ a ∈ (deleteQuestion db qid).answers, a.question ≠ qid) ∧
    (∀ i ∈ (deleteQuestion db qid).interactions, i.question ≠ qid) ∧
    (∀ t ∈ (deleteQuestion db qid).tags, qid ∉ t.questions) := by
  refine ⟨?_, ?_, ?_, ?_⟩
  · intro q hq
    have hq2 : q ∈ eraseFirst (fun x => x._id == qid) db.questions := hq
    exact eraseFirst_key_ne (fun x => x._id) qid db.questions hnd q hq2
  · intro a ha
    have h2 := (List.mem_filter.mp ha).2
    simpa using h2
  · intro i hi
    have h2 := (List.mem_filter.mp hi).2
    simpa using h2
  · intro t ht
    rcases List.mem_map.mp ht with ⟨t0, ht0, rfl⟩
    split
    · simp [List.mem_filter]
    · next hcon =>
      simp at hcon
      exact hcon

/-- Witness for claim C5 at `sampleDB`, deleting question 10: no question,
answer or interaction references 10 afterwards and tag 7 no longer lists it. -/
theorem claim_C5_witness :
    (∀ q ∈ (deleteQuestion sampleDB 10).questions, q._id ≠ 10) ∧
    (∀ a ∈ (deleteQuestion sampleDB 10).answers, a.question ≠ 10) ∧
    (∀ i ∈ (deleteQuestion sampleDB 10).interactions, i.question ≠ 10) ∧
    (∀ t ∈ (deleteQuestion sampleDB 10).tags, (10 : Nat) ∉ t.questions) :=
  claim_C5 sampleDB 10 (by decide)

/-- Claim C10: `editQuestion` on an existing question updates only `title` and
`content`: the stored question keeps its tags, author, upvotes, downvotes,
views, answers and creation timestamp, every other question is untouched, and
the other four collections are untouched. -/
theorem claim_C10 (db : DB) (qid : Nat) (title content : String) (q : Question)
    (hq : db.questions.find? (fun x => x._id == qid) = some q) :
    ∃ db1, editQuestion db qid title content = Except.ok db1 ∧
      (∃ q1, db1.questions.find? (fun x => x._id == qid) = some q1 ∧
        q1.title = title ∧ q1.content = content ∧
        q1.tags = q.tags ∧ q1.author = q.author ∧ q1.upvotes = q.upvotes ∧
        q1.downvotes = q.downvotes ∧ q1.views = q.views ∧
        q1.answers = q.answers ∧ q1.createdAt = q.createdAt) ∧
      (∀ k, k ≠ qid → db1.questions.find? (fun x => x._id == k) =
        db.questions.find? (fun x => x._id == k)) ∧
      db1.tags = db.tags ∧ db1.users = db.users ∧
      db1.answers = db.answers ∧ db1.interactions = db.interactions := by
  have h1 : (findAndUpdateFirst (fun x => x._id == qid)
      (fun q => { q with title := title, content := content }) db.questions).1 =
      some { q with title := title, content := content } := by
    rw [findAndUpdateFirst_fst, hq]; rfl
  refine ⟨{ db with questions := (findAndUpdateFirst (fun x => x._id == qid)
      (fun q => { q with title := title, content := content }) db.questions).2 },
    ?_, ?_, ?_, rfl, rfl, rfl, rfl⟩
  · simp [editQuestion, h1]
  · refine ⟨{ q with title := title, content := content }, ?_,
      rfl, rfl, rfl, rfl, rfl, rfl, rfl, rfl, rfl⟩
    show (findAndUpdateFirst (fun x => x._id == qid)
      (fun q => { q with title := title, content := content })
      db.questions).2.find? (fun x => x._id == qid) = _
    rw [findAndUpdateFirst_find?_same (fun x => x._id == qid)
      (fun q => { q with title := title, content := content })
      db.questions (fun x => rfl), hq]
    rfl
  · intro k hk
    apply findAndUpdateFirst_find?_other
    · intro x hx
      have hx2 : x._id = qid := by simpa using hx
      rw [hx2]
      exact beq_eq_false_iff_ne.mpr (Ne.symm hk)
    · intro x; rfl

/-- Witness for claim C10 at `sampleDB`, editing question 10. -/
theorem claim_C10_witness :
    ∃ db1, editQuestion sampleDB 10 "T2" "C2" = Except.ok db1 ∧
      (∃ q1, db1.questions.find? (fun x => x._id == 10) = some q1 ∧
        q1.title = "T2" ∧ q1.content = "C2" ∧
        q1.tags = sampleQ.tags ∧ q1.author = sampleQ.author ∧
        q1.upvotes = sampleQ.upvotes ∧ q1.downvotes = sampleQ.downvotes ∧
        q1.views = sampleQ.views ∧ q1.answers = sampleQ.answers ∧
        q1.createdAt = sampleQ.createdAt) ∧
      (∀ k, k ≠ 10 → db1.questions.find? (fun x => x._id == k) =
        sampleDB.questions.find? (fun x => x._id == k)) ∧
      db1.tags = sampleDB.tags ∧ db1.users = sampleDB.users ∧
      db1.answers = sampleDB.answers ∧ db1.interactions = sampleDB.interactions :=
  claim_C10 sampleDB 10 "T2" "C2" sampleQ (by decide)

/-! ### Reputation lemmas for createQuestion -/

theorem upsertTag_users (db : DB) (qid : Nat) (tag : String) :
    (upsertTag db qid tag).1.users = db.users := by
  cases h : (findAndUpdateFirst (fun t => regexTest ("^" ++ tag ++ "$") t.name)
      (fun t => { t with questions := t.questions ++ [qid] }) db.tags).1 with
  | none => simp [upsertTag, h]
  | some t => simp [upsertTag, h]

theorem upsertTags_users (qid : Nat) :
    ∀ (tags : List String) (db : DB), (upsertTags db qid tags).1.users = db.users := by
  intro tags
  induction tags with
  | nil => intro db; rfl
  | cons t ts ih =>
    intro db
    simp only [upsertTags]
    rw [ih, upsertTag_users]

theorem createQuestion_users (db : DB) (title content : String)
    (tags : List String) (author now : Nat) :
    (createQuestion db title content tags author now).users =
      (findAndUpdateFirst (fun u => u._id == author)
        (fun u => { u with reputation := u.reputation + 5 }) db.users).2 := by
  simp [createQuestion, upsertTags_users]

/-- Claim C3: the reputation magnitudes are fixed: `createQuestion` gives the
author exactly +5; `upvoteQuestion` changes the actor by +1 (fresh upvote) or
-1 (retraction); `downvoteQuestion` changes the actor by +2 (fresh downvote)
or -2 (retraction); and in both vote actions the question author changes by
+10 when receiving the vote and -10 when it is retracted. -/
theorem claim_C3 :
    (∀ (db : DB) (title content : String) (tags : List String)
        (author now : Nat) (u : User),
      db.users.find? (fun x => x._id == author) = some u →
      ∃ u1, (createQuestion db title content tags author now).users.find?
          (fun x => x._id == author) = some u1 ∧
        u1.reputation = u.reputation + 5) ∧
    (∀ (db : DB) (qid uid : Nat) (hu hd : Bool) (q : Question) (u a : User) (db1 : DB),
      db.questions.find? (fun x => x._id == qid) = some q →
      uid ≠ q.author →
      db.users.find? (fun x => x._id == uid) = some u →
      db.users.find? (fun x => x._id == q.author) = some a →
      upvoteQuestion db qid uid hu hd = Except.ok db1 →
      (∃ u1, db1.users.find? (fun x => x._id == uid) = some u1 ∧
        u1.reputation = u.reputation + (if hu then -1 else 1)) ∧
      (∃ a1, db1.users.find? (fun x => x._id == q.author) = some a1 ∧
        a1.reputation = a.reputation + (if hu then -10 else 10))) ∧
    (∀ (db : DB) (qid uid : Nat) (hu hd : Bool) (q : Question) (u a : User) (db2 : DB),
      db.questions.find? (fun x => x._id == qid) = some q →
      uid ≠ q.author →
      db.users.find? (fun x => x._id == uid) = some u →
      db.users.find? (fun x => x._id == q.author) = some a →
      downvoteQuestion db qid uid hu hd = Except.ok db2 →
      (∃ u1, db2.users.find? (fun x => x._id == uid) = some u1 ∧
        u1.reputation = u.reputation + (if hd then -2 else 2)) ∧
      (∃ a1, db2.users.find? (fun x => x._id == q.author) = some a1 ∧
        a1.reputation = a.reputation + (if hd then -10 else 10))) := by
  refine ⟨?_, ?_, ?_⟩
  · intro db title content tags author now u hufind
    rw [createQuestion_users]
    refine ⟨{ u with reputation := u.reputation + 5 }, ?_, rfl⟩
    rw [findAndUpdateFirst_find?_same (fun x => x._id == author)
      (fun u => { u with reputation := u.reputation + 5 }) db.users
      (fun x => rfl), hufind]
    rfl
  · intro db qid uid hu hd q u a db1 hq hne hufind hafind hok
    rw [upvoteQuestion_eq_ok db qid uid hu hd q hq] at hok
    have hdb1 := Except.ok.inj hok
    subst hdb1
    rw [upvoteUpdate_author]
    constructor
    · have h1 := incReputation_find?_self
        { db with questions := (findAndUpdateFirst (fun x => x._id == qid)
          (upvoteUpdate uid hu hd) db.questions).2 }
        uid (if hu then -1 else 1) u hufind
      have h2 := incReputation_find?_other
        (incReputation { db with questions := (findAndUpdateFirst (fun x => x._id == qid)
          (upvoteUpdate uid hu hd) db.questions).2 } uid (if hu then -1 else 1))
        q.author uid (if hu then -10 else 10) hne
      exact ⟨_, h2.trans h1, rfl⟩
    · have h1 := incReputation_find?_other
        { db with questions := (findAndUpdateFirst (fun x => x._id == qid)
          (upvoteUpdate uid hu hd) db.questions).2 }
        uid q.author (if hu then -1 else 1) (Ne.symm hne)
      have h2 := incReputation_find?_self
        (incReputation { db with questions := (findAndUpdateFirst (fun x => x._id == qid)
          (upvoteUpdate uid hu hd) db.questions).2 } uid (if hu then -1 else 1))
        q.author (if hu then -10 else 10) a (h1.trans hafind)
      exact ⟨_, h2, rfl⟩
  · intro db qid uid hu hd q u a db2 hq hne hufind hafind hok
    rw [downvoteQuestion_eq_ok db qid uid hu hd q hq] at hok
    have hdb2 := Except.ok.inj hok
    subst hdb2
    rw [downvoteUpdate_author]
    constructor
    · have h1 := incReputation_find?_self
        { db with questions := (findAndUpdateFirst (fun x => x._id == qid)
          (downvoteUpdate uid hu hd) db.questions).2 }
        uid (if hd then -2 else 2) u hufind
      have h2 := incReputation_find?_other
        (incReputation { db with questions := (findAndUpdateFirst (fun x => x._id == qid)
          (downvoteUpdate uid hu hd) db.questions).2 } uid (if hd then -2 else 2))
        q.author uid (if hd then -10 else 10) hne
      exact ⟨_, h2.trans h1, rfl⟩
    · have h1 := incReputation_find?_other
        { db with questions := (findAndUpdateFirst (fun x => x._id == qid)
          (downvoteUpdate uid hu hd) db.questions).2 }
        uid q.author (if hd then -2 else 2) (Ne.symm hne)
      have h2 := incReputation_find?_self
        (incReputation { db with questions := (findAndUpdateFirst (fun x => x._id == qid)
          (downvoteUpdate uid hu hd) db.questions).2 } uid (if hd then -2 else 2))
        q.author (if hd then -10 else 10) a (h1.trans hafind)
      exact ⟨_, h2, rfl⟩

/-- Witness for claim C3 at `sampleDB`: asking gives the author +5; an
upvote-swap by user 2 gives the actor +1 and author +10; retracting a
downvote gives the actor -2 and the author -10. -/
theorem claim_C3_witness :
    (∃ u1, (createQuestion sampleDB "T" "C" [] 1 9).users.find?
        (fun x => x._id == 1) = some u1 ∧
      u1.reputation = (0 : Int) + 5) ∧
    ((∃ u1, sampleDBSwapped.users.find? (fun x => x._id == 2) = some u1 ∧
        u1.reputation = (0 : Int) + (if (false : Bool) then -1 else 1)) ∧
      (∃ a1, sampleDBSwapped.users.find? (fun x => x._id == 1) = some a1 ∧
        a1.reputation = (0 : Int) + (if (false : Bool) then -10 else 10))) ∧
    ((∃ u1, sampleDBRetracted.users.find? (fun x => x._id == 2) = some u1 ∧
        u1.reputation = (0 : Int) + (if (true : Bool) then -2 else 2)) ∧
      (∃ a1, sampleDBRetracted.users.find? (fun x => x._id == 1) = some a1 ∧
        a1.reputation = (0 : Int) + (if (true : Bool) then -10 else 10))) :=
  ⟨claim_C3.1 sampleDB "T" "C" [] 1 9 ⟨1, "c1", 0⟩ (by decide),
   claim_C3.2.1 sampleDB 10 2 false true sampleQ ⟨2, "c2", 0⟩ ⟨1, "c1", 0⟩
     sampleDBSwapped (by decide) (by decide) (by decide) (by decide) (by rfl),
   claim_C3.2.2 sampleDB 10 2 false true sampleQ ⟨2, "c2", 0⟩ ⟨1, "c1", 0⟩
     sampleDBRetracted (by decide) (by decide) (by decide) (by decide) (by rfl)⟩

/-- Counterexample to claim C2 as stated: at `sampleDB`, user 2 (who had
downvoted question 10, authored by user 1) calls `upvoteQuestion`. The actor's
reputation delta is +1, not the claimed +2 retraction plus +1 upvote, and the
author's is +10, not the claimed +10 retraction plus +10 upvote. -/
theorem claim_C2_counterexample :
    upvoteQuestion sampleDB 10 2 false true = Except.ok sampleDBSwapped ∧
    (sampleDBSwapped.users.find? (fun x => x._id == 2)).map User.reputation =
      some 1 ∧
    (sampleDBSwapped.users.find? (fun x => x._id == 1)).map User.reputation =
      some 10 ∧
    ¬((sampleDBSwapped.users.find? (fun x => x._id == 2)).map User.reputation =
      some (0 + (2 + 1))) ∧
    ¬((sampleDBSwapped.users.find? (fun x => x._id == 1)).map User.reputation =
      some (0 + (10 + 10))) :=
  ⟨by rfl, by decide, by decide, by decide, by decide⟩

/-- Claim C2 (amended): when `upvoteQuestion` is called for a user who had
downvoted the question (hasdownVoted = true, hasupVoted = false), the question
transitions from downvoted to upvoted for that user as observed by subsequent
reads, and the reputation deltas are the fresh-upvote amounts only — actor +1
and question author +10 — with no separate downvote-retraction compensation. -/
theorem claim_C2 (db : DB) (qid uid : Nat) (q : Question) (u a : User)
    (hq : db.questions.find? (fun x => x._id == qid) = some q)
    (_hdn : uid ∈ q.downvotes) (_hup : uid ∉ q.upvotes) (hne : uid ≠ q.author)
    (hufind : db.users.find? (fun x => x._id == uid) = some u)
    (hafind : db.users.find? (fun x => x._id == q.author) = some a) :
    ∃ db1, upvoteQuestion db qid uid false true = Except.ok db1 ∧
      (∃ q1, db1.questions.find? (fun x => x._id == qid) = some q1 ∧
        uid ∈ q1.upvotes ∧ uid ∉ q1.downvotes) ∧
      (∃ u1, db1.users.find? (fun x => x._id == uid) = some u1 ∧
        u1.reputation = u.reputation + 1) ∧
      (∃ a1, db1.users.find? (fun x => x._id == q.author) = some a1 ∧
        a1.reputation = a.reputation + 10) := by
  refine ⟨_, upvoteQuestion_eq_ok db qid uid false true q hq, ?_, ?_, ?_⟩
  · refine ⟨upvoteUpdate uid false true q, ?_, ?_, ?_⟩
    · rw [incReputation_questions, incReputation_questions]
      rw [findAndUpdateFirst_find?_same _ _ _
        (fun x => by simp [upvoteUpdate_id]), hq]
      rfl
    · simp [upvoteUpdate]
    · simp [upvoteUpdate, List.mem_filter]
  · have h1 := incReputation_find?_self
      { db with questions := (findAndUpdateFirst (fun x => x._id == qid)
        (upvoteUpdate uid false true) db.questions).2 }
      uid (if false then -1 else 1) u hufind
    have h2 := incReputation_find?_other
      (incReputation { db with questions := (findAndUpdateFirst (fun x => x._id == qid)
        (upvoteUpdate uid false true) db.questions).2 } uid (if false then -1 else 1))
      (upvoteUpdate uid false true q).author uid (if false then -10 else 10)
      (by rw [upvoteUpdate_author]; exact hne)
    exact ⟨_, h2.trans h1, rfl⟩
  · have h1 := incReputation_find?_other
      { db with questions := (findAndUpdateFirst (fun x => x._id == qid)
        (upvoteUpdate uid false true) db.questions).2 }
      uid q.author (if false then -1 else 1) (Ne.symm hne)
    have h2 := incReputation_find?_self
      (incReputation { db with questions := (findAndUpdateFirst (fun x => x._id == qid)
        (upvoteUpdate uid false true) db.questions).2 } uid (if false then -1 else 1))
      q.author (if false then -10 else 10) a (h1.trans hafind)
    rw [upvoteUpdate_author]
    exact ⟨_, h2, rfl⟩

/-- Witness for the amended claim C2 at `sampleDB`. -/
theorem claim_C2_witness :
    ∃ db1, upvoteQuestion sampleDB 10 2 false true = Except.ok db1 ∧
      (∃ q1, db1.questions.find? (fun x => x._id == 10) = some q1 ∧
        (2 : Nat) ∈ q1.upvotes ∧ (2 : Nat) ∉ q1.downvotes) ∧
      (∃ u1, db1.users.find? (fun x => x._id == 2) = some u1 ∧
        u1.reputation = (0 : Int) + 1) ∧
      (∃ a1, db1.users.find? (fun x => x._id == sampleQ.author) = some a1 ∧
        a1.reputation = (0 : Int) + 10) :=
  claim_C2 sampleDB 10 2 sampleQ ⟨2, "c2", 0⟩ ⟨1, "c1", 0⟩
    (by decide) (by decide) (by decide) (by decide) (by decide) (by decide)

/-- Claim C6: every question returned by `getRecommendedQuestions` has an
author different from the requesting user (resolved from the clerkId) and
carries at least one tag from the deduplicated tag ids of that user's
Interaction records — with or without a search query. -/
theorem claim_C6 (db : DB) (userId : String) (page ps : Nat) (sq : Option String)
    (res : List Question × Bool) (user : User)
    (huser : db.users.find? (fun u => u.clerkId == userId) = some user)
    (hok : getRecommendedQuestions db userId page ps sq = Except.ok res) :
    ∀ q ∈ res.1, q.author ≠ user._id ∧
      ∃ t, t ∈ q.tags ∧ t ∈ userDistinctTagIds db user._id := by
  simp only [getRecommendedQuestions, huser] at hok
  have hres := Except.ok.inj hok
  subst hres
  intro q hq
  have hsub : List.Sublist
      (((db.questions.filter
        (recommendedQuery (userDistinctTagIds db user._id) user._id sq)).drop
          ((page - 1) * ps)).take ps)
      (db.questions.filter
        (recommendedQuery (userDistinctTagIds db user._id) user._id sq)) :=
    (List.take_sublist _ _).trans (List.drop_sublist _ _)
  have hq2 : q ∈ db.questions.filter
      (recommendedQuery (userDistinctTagIds db user._id) user._id sq) :=
    hsub.subset hq
  have hmem := (List.mem_filter.mp hq2).2
  simp only [recommendedQuery, Bool.and_eq_true] at hmem
  obtain ⟨⟨htag, hauthor⟩, _⟩ := hmem
  constructor
  · simpa using hauthor
  · rcases List.any_eq_true.mp htag with ⟨t, ht, hcont⟩
    exact ⟨t, ht, by simpa using hcont⟩

/-- Witness for claim C6 at `sampleDB`: the recommendation for user 2 returns
question 10, authored by user 1 ≠ 2 and tagged 7 ∈ the interaction tags. -/
theorem claim_C6_witness :
    sampleQ.author ≠ (2 : Nat) ∧
      ∃ t, t ∈ sampleQ.tags ∧ t ∈ userDistinctTagIds sampleDB 2 :=
  claim_C6 sampleDB "c2" 1 20 none ([sampleQ], false) ⟨2, "c2", 0⟩
    (by decide) (by rfl) sampleQ (by decide)

/-! ### The regex engine on metacharacter-free patterns -/

theorem charBeq_symm (a b : Char) : (a == b) = (b == a) := by
  by_cases h : a = b
  · rw [h]
  · rw [beq_eq_false_iff_ne.mpr h, beq_eq_false_iff_ne.mpr (Ne.symm h)]

theorem regexLiteral_chars (s : String) (h : regexLiteral s = true) :
    ∀ c ∈ s.data, regexMetaChars.contains c = false := by
  intro c hc
  have h2 := (List.all_eq_true.mp h) c hc
  simpa using h2

theorem not_meta_beq (c x : Char) (hc : regexMetaChars.contains c = false)
    (hx : regexMetaChars.contains x = true) : (c == x) = false := by
  apply beq_eq_false_iff_ne.mpr
  intro he
  subst he
  rw [hx] at hc
  exact Bool.noConfusion hc

theorem isQuantChar_of_not_meta (c : Char)
    (hc : regexMetaChars.contains c = false) : isQuantChar c = false := by
  simp only [isQuantChar]
  rw [not_meta_beq c '*' hc (by decide), not_meta_beq c '+' hc (by decide),
      not_meta_beq c '?' hc (by decide)]
  rfl

theorem atomOf_literal (c : Char) (hc : regexMetaChars.contains c = false) :
    atomOf c = some (RAtom.ch c) := by
  unfold atomOf
  rw [not_meta_beq c '.' hc (by decide), hc]
  simp

theorem parseRev_literal :
    ∀ r : List Char, (∀ c ∈ r, regexMetaChars.contains c = false) →
      parseRev r = some (piecesLit r.reverse) := by
  intro r
  induction r with
  | nil => intro _; rfl
  | cons c r2 ih =>
    intro h
    have hc := h c (List.mem_cons_self c r2)
    have hq : isQuantChar c = false := isQuantChar_of_not_meta c hc
    have ha : atomOf c = some (RAtom.ch c) := atomOf_literal c hc
    have ih2 := ih (fun x hx => h x (List.mem_cons_of_mem c hx))
    rw [parseRev.eq_def]
    simp only [hq, Bool.false_eq_true, if_false, ha, ih2, Option.map_some']
    simp [piecesLit, List.reverse_cons]

theorem parsePieces_literal (l : List Char)
    (h : ∀ c ∈ l, regexMetaChars.contains c = false) :
    parsePieces l = some (piecesLit l) := by
  unfold parsePieces
  rw [parseRev_literal l.reverse (fun c hc => h c (List.mem_reverse.mp hc)),
      List.reverse_reverse]

theorem head?_ne_caret (l : List Char)
    (h : ∀ c ∈ l, regexMetaChars.contains c = false) : l.head? ≠ some '^' := by
  cases l with
  | nil => simp
  | cons c rest =>
    intro he
    have hc := h c (List.mem_cons_self c rest)
    have : c = '^' := by simpa using he
    subst this
    exact absurd hc (by decide)

theorem getLast?_ne_dollar :
    ∀ l : List Char, (∀ c ∈ l, regexMetaChars.contains c = false) →
      l.getLast? ≠ some '$' := by
  intro l
  induction l with
  | nil => intro _; simp
  | cons c rest ih =>
    intro h
    cases rest with
    | nil =>
      intro he
      have hc := h c (List.mem_cons_self c [])
      have : c = '$' := by simpa using he
      subst this
      exact absurd hc (by decide)
    | cons d rest2 =>
      rw [List.getLast?_cons_cons]
      exact ih (fun x hx => h x (List.mem_cons_of_mem c hx))

theorem parseRegex_literal (l : List Char)
    (h : ∀ c ∈ l, regexMetaChars.contains c = false) :
    parseRegex l = some (false, piecesLit l, false) := by
  simp only [parseRegex, if_neg (head?_ne_caret l h),
    decide_eq_false (head?_ne_caret l h), if_neg (getLast?_ne_dollar l h),
    decide_eq_false (getLast?_ne_dollar l h), parsePieces_literal l h,
    Option.map_some']

theorem list_any_congr {α : Type} (l : List α) (p q2 : α → Bool)
    (h : ∀ a, p a = q2 a) : l.any p = l.any q2 := by
  induction l with
  | nil => rfl
  | cons x xs ih => simp only [List.any_cons, h x, ih]

theorem seqSuffixes_lit (l : List Char) :
    ∀ cs : List Char, seqSuffixes (piecesLit l) cs =
      if isPrefixL (l.map Char.toLower) (cs.map Char.toLower) then [cs.drop l.length]
      else [] := by
  induction l with
  | nil =>
    intro cs
    simp [piecesLit, seqSuffixes, isPrefixL]
  | cons c l2 ih =>
    intro cs
    cases cs with
    | nil =>
      simp [piecesLit, seqSuffixes, pieceSuffixes, onceSuffixes, isPrefixL]
    | cons d cs2 =>
      cases hm : atomMatches (RAtom.ch c) d with
      | true =>
        have hm2 : (Char.toLower c == Char.toLower d) = true := by
          rw [charBeq_symm]
          simpa [atomMatches] using hm
        simp only [piecesLit, List.map_cons, seqSuffixes, pieceSuffixes,
          onceSuffixes, hm, if_true, List.flatMap_cons, List.flatMap_nil,
          List.append_nil, isPrefixL, hm2, Bool.true_and, List.length_cons,
          List.drop_succ_cons]
        exact ih cs2
      | false =>
        have hm2 : (Char.toLower c == Char.toLower d) = false := by
          rw [charBeq_symm]
          simpa [atomMatches] using hm
        simp [piecesLit, seqSuffixes, pieceSuffixes, onceSuffixes, hm,
          isPrefixL, hm2]

theorem anySuffixes_containsSub (n : List Char) :
    ∀ h : List Char,
      ((allSuffixes h).any (fun cs => isPrefixL n (cs.map Char.toLower))) =
        containsSub n (h.map Char.toLower) := by
  intro h
  induction h with
  | nil =>
    cases n <;> rfl
  | cons c t ih =>
    simp only [allSuffixes, List.any_cons, List.map_cons, containsSub, ih]

theorem containsCI_literal (s hay : String) (h : regexLiteral s = true) :
    containsCI hay s = containsSub (lowerStr s) (lowerStr hay) := by
  unfold containsCI regexTest
  rw [parseRegex_literal s.data (regexLiteral_chars s h)]
  show ((allSuffixes hay.data).any fun cs =>
    (seqSuffixes (piecesLit s.data) cs).any fun rest => !false || rest.isEmpty) = _
  have hstep : ∀ cs, ((seqSuffixes (piecesLit s.data) cs).any
      (fun rest => !false || rest.isEmpty)) =
      isPrefixL (lowerStr s) (cs.map Char.toLower) := by
    intro cs
    rw [seqSuffixes_lit s.data cs]
    cases hp : isPrefixL (s.data.map Char.toLower) (cs.map Char.toLower) with
    | true => simp [hp, lowerStr]
    | false => simp [hp, lowerStr]
  rw [list_any_congr _ _ _ hstep]
  exact anySuffixes_containsSub (lowerStr s) hay.data

/-- Claim C8 (amended): with a search query present that contains no regex
metacharacters, the matching set of `getQuestions` is exactly the questions
whose title or content contains the query as a case-insensitive substring;
`newest` and the default sort descending by creation time, `frequent`
descending by views, and `unanswered` returns only questions with no answers.
(For metacharacter queries the unescaped `new RegExp(searchQuery, 'i')` does
not perform substring matching, as the accompanying counterexample shows.) -/
theorem claim_C8 :
    (∀ (db : DB) (s : String) (q : Question), regexLiteral s = true →
      (q ∈ db.questions.filter (questionQuery (some s) none) ↔
        q ∈ db.questions ∧
          ((∃ l r, (lowerStr q.title) = l ++ (lowerStr s) ++ r) ∨
           (∃ l r, (lowerStr q.content) = l ++ (lowerStr s) ++ r)))) ∧
    (∀ (db : DB) (sq : Option String) (page ps : Nat),
      ((getQuestions db sq (some ("newest")) page ps).1.Pairwise
        (fun a b => b.createdAt ≤ a.createdAt)) ∧
      ((getQuestions db sq none page ps).1.Pairwise
        (fun a b => b.createdAt ≤ a.createdAt)) ∧
      ((getQuestions db sq (some ("frequent")) page ps).1.Pairwise
        (fun a b => b.views ≤ a.views))) ∧
    (∀ (db : DB) (sq : Option String) (page ps : Nat),
      ∀ q ∈ (getQuestions db sq (some ("unanswered")) page ps).1,
        q.answers = []) := by
  refine ⟨?_, ?_, ?_⟩
  · intro db s q hlit
    have h1 := containsCI_literal s q.title hlit
    have h2 := containsCI_literal s q.content hlit
    simp only [List.mem_filter, questionQuery, h1, h2, Bool.or_eq_true,
      Bool.and_eq_true, containsSub_iff, and_true]
  · intro db sq page ps
    have e1 : (("newest" : String) == ("newest" : String)) = true := by decide
    have e2 : (("frequent" : String) == ("newest" : String)) = false := by decide
    have e3 : (("frequent" : String) == ("frequent" : String)) = true := by decide
    refine ⟨?_, ?_, ?_⟩
    · apply List.Pairwise.sublist ((List.take_sublist _ _).trans (List.drop_sublist _ _))
      simp only [questionSort, e1, if_pos]
      exact pairwise_sortByKeyDesc _ _
    · apply List.Pairwise.sublist ((List.take_sublist _ _).trans (List.drop_sublist _ _))
      simp only [questionSort]
      exact pairwise_sortByKeyDesc _ _
    · apply List.Pairwise.sublist ((List.take_sublist _ _).trans (List.drop_sublist _ _))
      simp only [questionSort, e2, e3, if_pos, if_neg, Bool.false_eq_true,
        not_false_eq_true]
      exact pairwise_sortByKeyDesc _ _
  · intro db sq page ps q hq
    have e4 : (("unanswered" : String) == ("newest" : String)) = false := by decide
    have e5 : (("unanswered" : String) == ("frequent" : String)) = false := by decide
    have e6 : (("unanswered" : String) == ("unanswered" : String)) = true := by decide
    have hq1 : q ∈ questionSort (some ("unanswered"))
        (db.questions.filter (questionQuery sq (some ("unanswered")))) :=
      ((List.take_sublist _ _).trans (List.drop_sublist _ _)).subset hq
    rw [questionSort] at hq1
    rw [if_neg (by simp [e4]), if_neg (by simp [e5]), if_pos (by simp [e6])] at hq1
    have hmatch := (List.mem_filter.mp hq1).2
    simp only [questionQuery, e6, Bool.and_eq_true] at hmatch
    have hlen := hmatch.2
    simpa using hlen

/-- Witness for claim C8 at `sampleDB`: the metacharacter-free query `rust`
characterizes the match set of question 10 as substring search, and question
10 is returned by the `unanswered` filter and indeed has no answers. -/
theorem claim_C8_witness :
    (sampleQ ∈ sampleDB.questions.filter (questionQuery (some ("rust")) none) ↔
      sampleQ ∈ sampleDB.questions ∧
        ((∃ l r, (lowerStr sampleQ.title) = l ++ (lowerStr ("rust" : String)) ++ r) ∨
         (∃ l r, (lowerStr sampleQ.content) = l ++ (lowerStr ("rust" : String)) ++ r))) ∧
    sampleQ.answers = ([] : List Nat) :=
  ⟨claim_C8.1 sampleDB "rust" sampleQ (by decide),
   claim_C8.2.2 sampleDB none 1 20 sampleQ (by decide)⟩

/-- Counterexample to claim C8 as stated: the query `.` is passed unescaped to
`new RegExp(searchQuery, 'i')`, so it matches any non-empty title or content.
Question 10 of `sampleDB` is in the matching set although neither its title
nor its content contains `.` as a substring, refuting the exact substring
characterization for arbitrary queries. -/
theorem claim_C8_counterexample :
    ¬(sampleQ ∈ sampleDB.questions.filter (questionQuery (some (".")) none) ↔
      sampleQ ∈ sampleDB.questions ∧
        ((∃ l r, (lowerStr sampleQ.title) = l ++ (lowerStr ("." : String)) ++ r) ∨
         (∃ l r, (lowerStr sampleQ.content) = l ++ (lowerStr ("." : String)) ++ r))) := by
  intro hiff
  have hmem : sampleQ ∈ sampleDB.questions.filter (questionQuery (some (".")) none) := by
    decide
  rcases (hiff.mp hmem).2 with hti | hco
  · have hsub := (containsSub_iff (lowerStr ("." : String)) (lowerStr sampleQ.title)).mpr hti
    exact absurd hsub (by decide)
  · have hsub := (containsSub_iff (lowerStr ("." : String)) (lowerStr sampleQ.content)).mpr hco
    exact absurd hsub (by decide)

/-! ### Tag upsert lemmas -/

end QApp
